import Mathlib

/-!
Verification of the MaudeView watchlist-manager agent core: a shallow
embedding of the LM Studio agent loop (`agent.py`), the MCP subprocess
client (`mcp_subprocess.py`) and the tool-schema adapter (`llm_client.py`),
together with theorems settling the specified properties.
-/

namespace MaudeView

/-! ## MCP subprocess client (`mcp_subprocess.py`)

The client speaks newline-delimited JSON-RPC 2.0 over the child process's
stdin/stdout.  We embed the inbound side of the channel as a list of wire
lines, each line being what `_read_response` sees after `readline`,
`decode`, `strip` and `json.loads`:

* `blank` — the stripped line is empty (`if not line: continue`);
* `malformed` — `json.loads` raised `JSONDecodeError`;
* `noId` — a parsed JSON object with no `"id"` key (a notification);
* `response` — a parsed JSON object with an `"id"`, an optional non-null
  `"error"` object and an optional `"result"` object.  An absent `"error"`
  key and an explicit `"error": null` behave identically in the source
  (`"error" in msg and msg["error"] is not None`), so both map to `none`.

An exhausted list models EOF on stdout (`readline` returning `b""`). -/

structure RpcError where
  code : Int
  message : String
deriving Repr, DecidableEq

/-- One part of a `tools/call` result's `content` array: either a
`{"type": "text", ...}` part whose `"text"` field may be absent, or a part
of some other type. -/
inductive ContentPart
  | text (t : Option String)
  | other (ty : String)
deriving Repr, DecidableEq

def ContentPart.isText : ContentPart → Bool
  | .text _ => true
  | .other _ => false

/-- `p.get("text", "")` on a content part. -/
def ContentPart.textField : ContentPart → String
  | .text t => t.getD ""
  | .other _ => ""

/-- The `"result"` object of a `tools/call` response: `"isError"` and
`"content"` keys, each possibly absent. -/
structure ToolCallOutcome where
  isError : Option Bool
  content : Option (List ContentPart)
deriving Repr, DecidableEq

inductive WireLine
  | blank
  | malformed (raw : String)
  | noId (method : String)
  | response (id : Nat) (error : Option RpcError) (result : Option ToolCallOutcome)
deriving Repr, DecidableEq

/-- Outcome of `_read_response`: a result object, a raised `RuntimeError`
for a remote error object (carrying the remote code and message), or a
raised `RuntimeError` for EOF on the child's stdout. -/
inductive ReadOutcome
  | ok (result : ToolCallOutcome)
  | rpcError (code : Int) (message : String)
  | eof
deriving Repr, DecidableEq

/-- `MCPSubprocess._read_response(expected_id)`: scan inbound lines,
skipping blank, non-JSON and id-less lines and responses whose id does not
match; at the first matching response, raise if it carries a non-null
error object, else return `msg.get("result", {})`.  EOF raises. -/
def read_response (expected : Nat) : List WireLine → ReadOutcome
  | [] => .eof
  | .blank :: rest => read_response expected rest
  | .malformed _ :: rest => read_response expected rest
  | .noId _ :: rest => read_response expected rest
  | .response i err res :: rest =>
      if i = expected then
        match err with
        | some e => .rpcError e.code e.message
        | none => .ok (res.getD ⟨none, none⟩)
      else
        read_response expected rest

/-- The mutable request-id counter of one `MCPSubprocess` session. -/
structure MCPState where
  request_id : Nat
deriving Repr, DecidableEq

/-- `_send_request`'s id assignment: `self._request_id += 1; req_id = self._request_id`. -/
def next_request_id (s : MCPState) : Nat × MCPState :=
  let rid := s.request_id + 1
  (rid, ⟨rid⟩)

/-- The session state after `n` successive `_send_request` calls. -/
def state_after (s : MCPState) : Nat → MCPState
  | 0 => s
  | n + 1 => (next_request_id (state_after s n)).2

/-- The correlation id assigned to the `n`-th (0-based) request of a session
starting in state `s`. -/
def request_id_seq (s : MCPState) (n : Nat) : Nat :=
  (next_request_id (state_after s n)).1

/-- Transport-level failures of `call_tool` (`RuntimeError` in the source). -/
inductive TransportFailure
  | eofClosed
  | rpc (code : Int) (message : String)
deriving Repr, DecidableEq

/-- Lines 71–76 of `mcp_subprocess.py`: project a `tools/call` result object
to `(content_text, is_error)`. -/
def call_tool_project (result : ToolCallOutcome) : String × Bool :=
  let is_error := result.isError.getD false
  let content_parts := result.content.getD []
  let text_parts := (content_parts.filter ContentPart.isText).map ContentPart.textField
  (String.intercalate "\n" text_parts, is_error)

/-- `MCPSubprocess.call_tool` after the request with id `expected` has been
written: read the matching response from the wire and project it. -/
def call_tool (expected : Nat) (lines : List WireLine) :
    Except TransportFailure (String × Bool) :=
  match read_response expected lines with
  | .eof => .error .eofClosed
  | .rpcError c m => .error (.rpc c m)
  | .ok result => .ok (call_tool_project result)

/-! ### `stop()` (`mcp_subprocess.py` lines 78–93)

The process handle is `None` (start never spawned), running
(`returncode is None`) or exited.  The environment oracle decides the
nondeterministic outcomes: whether `send_signal(SIGTERM)` raises
`ProcessLookupError` (the process vanished), whether the process exits
within the 5-second timeout, and whether `kill()` raises
`ProcessLookupError`.  These are the only exceptions the primitives raise
here, and the source catches exactly `ProcessLookupError` around the body. -/

inductive ProcState
  | notStarted
  | running
  | exited
deriving Repr, DecidableEq

inductive PyExc
  | processLookupError
deriving Repr, DecidableEq

structure StopEnv where
  sigtermRaises : Bool
  exitsBeforeTimeout : Bool
  killRaises : Bool
deriving Repr, DecidableEq

/-- The `try:` body of `stop`: SIGTERM, bounded wait, then SIGKILL + wait on
timeout. -/
def stop_try_body (env : StopEnv) : Except PyExc Unit := do
  if env.sigtermRaises then throw .processLookupError
  if env.exitsBeforeTimeout then
    pure ()
  else
    if env.killRaises then throw .processLookupError
    pure ()

/-- `MCPSubprocess.stop`: early return when no live process; otherwise run
the try body, swallowing `ProcessLookupError`.  Returns the new process
state; `.error` would model an uncaught exception escaping `stop`. -/
def stop (env : StopEnv) : ProcState → Except PyExc ProcState
  | .notStarted => .ok .notStarted
  | .exited => .ok .exited
  | .running =>
      match stop_try_body env with
      | .ok _ => .ok .exited
      | .error .processLookupError => .ok .exited

/-! ## Tool schema adapter (`llm_client.py` lines 11–27, `agent.py` lines 54–56)

A tool descriptor is parsed JSON from `tools/list`.  The value under a
schema's `"properties"` key may be an explicit JSON `null` or a mapping, and
the key may be absent altogether; the source tests only key presence
(`"properties" not in schema`), so the distinction matters. -/

/-- The JSON value stored under a schema's `"properties"` key. -/
inductive PropsValue
  | null
  | map (m : List (String × String))
deriving Repr, DecidableEq

/-- An `inputSchema` object: its `"type"` key, its `"properties"` key
(`none` when the key is absent), and the remaining keys carried opaquely
and copied unchanged by `dict(...)`. -/
structure InputSchema where
  type : Option String
  properties : Option PropsValue
  extra : List (String × String)
deriving Repr, DecidableEq

/-- An MCP tool descriptor `{name, description, inputSchema}` with the two
optional keys possibly absent. -/
structure MCPTool where
  name : String
  description : Option String
  inputSchema : Option InputSchema
deriving Repr, DecidableEq

/-- A model-facing tool entry `{name, description, input_schema}`. -/
structure AnthropicTool where
  name : String
  description : String
  input_schema : InputSchema
deriving Repr, DecidableEq

/-- `tool.get("inputSchema", {"type": "object"})`'s default. -/
def default_schema : InputSchema := ⟨some "object", none, []⟩

/-- `if "properties" not in schema: schema["properties"] = {}`. -/
def ensure_properties (schema : InputSchema) : InputSchema :=
  if schema.properties = none then { schema with properties := some (.map []) }
  else schema

/-- `mcp_tools_to_anthropic` (`llm_client.py` lines 11–27). -/
def mcp_tools_to_anthropic (mcp_tools : List MCPTool) : List AnthropicTool :=
  mcp_tools.map fun tool =>
    { name := tool.name
      description := tool.description.getD ""
      input_schema := ensure_properties (tool.inputSchema.getD default_schema) }

/-- `LMStudioAgent.start` lines 54–56: filter to the allowed bare names,
then adapt.  The source membership test is against a set; a list with
`contains` has the same membership semantics. -/
def filter_and_adapt (allowed : List String) (mcp_tools : List MCPTool) :
    List AnthropicTool :=
  mcp_tools_to_anthropic (mcp_tools.filter fun t => allowed.contains t.name)

/-! ## Agent loop (`agent.py` lines 75–149)

The model gateway is a black box: a function from the accumulated message
history to the `content` list of its response (`response.get("content", [])`
— a missing `content` key is the empty list).  Content blocks mirror the
wire dicts: a `text` block whose `"text"` field may be absent, a `tool_use`
block with mandatory `"name"`/`"id"` and optional `"input"` (defaulting to
`{}`), or a block of another type.  The tool executor returns
`Except`: `.error e` models `call_tool` raising an exception with message
`e`. -/

inductive ContentBlock
  | text (t : Option String)
  | toolUse (name : String) (input : Option String) (id : String)
  | other (ty : String)
deriving Repr, DecidableEq

/-- `b.get("type") == "tool_use"`. -/
def ContentBlock.isToolUse : ContentBlock → Bool
  | .toolUse _ _ _ => true
  | _ => false

/-- `b.get("type") == "text"`. -/
def ContentBlock.isTextBlock : ContentBlock → Bool
  | .text _ => true
  | _ => false

/-- `b.get("text", "")`. -/
def ContentBlock.textField : ContentBlock → String
  | .text t => t.getD ""
  | _ => ""

/-- `tu["name"]` (junk on non-tool-use blocks, never applied there). -/
def ContentBlock.toolName : ContentBlock → String
  | .toolUse n _ _ => n
  | _ => ""

/-- `tu["id"]` (junk on non-tool-use blocks, never applied there). -/
def ContentBlock.toolUseId : ContentBlock → String
  | .toolUse _ _ i => i
  | _ => ""

/-- A `tool_result` block as built at `agent.py` lines 133–138 (the
`"type": "tool_result"` tag is implicit in the Lean type). -/
structure ToolResultBlock where
  tool_use_id : String
  content : String
  is_error : Bool
deriving Repr, DecidableEq

/-- The `content` of a conversation message: the initial user string, an
assistant turn's block list, or a tool-result turn's result list. -/
inductive MsgContent
  | ofString (s : String)
  | ofBlocks (bs : List ContentBlock)
  | ofResults (rs : List ToolResultBlock)
deriving Repr, DecidableEq

structure Message where
  role : String
  content : MsgContent
deriving Repr, DecidableEq

/-- `AgentResponse` (`agent.py` lines 19–24). -/
structure AgentResponse where
  text : String
  tool_calls_made : List String
deriving Repr, DecidableEq

/-- The tool executor: `self._mcp.call_tool(name, input)`, which either
returns `(text, is_error)` or raises (modelled as `.error` with the
exception's string rendering). -/
def ToolExec : Type := String → String → Except String (String × Bool)

def no_text_sentinel : String := "(no text response)"

def max_turns_sentinel : String := "(max turns reached without final response)"

/-- Lines 126–131: the `try/except` around one `call_tool` dispatch.  An
exception becomes the labelled error text `f"MCP error: {e}"` with the
error flag set; it never propagates. -/
def run_tool (exec : ToolExec) (name input : String) : String × Bool :=
  match exec name input with
  | .ok r => r
  | .error e => ("MCP error: " ++ e, true)

/-- Lines 117–138: the `for tu in tool_uses` loop, building the
`tool_results` list and appending each attempted name to
`tool_calls_made`.  Returns `(tool_results, names appended)`. -/
def process_tool_uses (exec : ToolExec) :
    List ContentBlock → List ToolResultBlock × List String
  | [] => ([], [])
  | .toolUse name input i :: rest =>
      let r := run_tool exec name (input.getD "\x7b\x7d")
      let p := process_tool_uses exec rest
      (⟨i, r.1, r.2⟩ :: p.1, name :: p.2)
  | .text _ :: rest => process_tool_uses exec rest
  | .other _ :: rest => process_tool_uses exec rest

/-- Outcome of one loop iteration: return from `query`, or continue with
the grown message history and tool-call history. -/
inductive StepOutcome
  | done (r : AgentResponse) (messages : List Message)
  | next (messages : List Message) (tool_calls_made : List String)
deriving Repr, DecidableEq

/-- One iteration of the `for turn in range(max_turns)` body
(`agent.py` lines 88–144), given the model response's `content`. -/
def loop_step (exec : ToolExec) (content : List ContentBlock)
    (messages : List Message) (tool_calls_made : List String) : StepOutcome :=
  let messages := messages ++ [⟨"assistant", .ofBlocks content⟩]
  let tool_uses := content.filter ContentBlock.isToolUse
  if tool_uses.isEmpty then
    let text_parts := (content.filter ContentBlock.isTextBlock).map ContentBlock.textField
    let joined := String.intercalate "\n" text_parts
    .done ⟨if joined = "" then no_text_sentinel else joined, tool_calls_made⟩ messages
  else
    let p := process_tool_uses exec tool_uses
    .next (messages ++ [⟨"user", .ofResults p.1⟩]) (tool_calls_made ++ p.2)

/-- Result of a whole `query` call, instrumented with the number of turns
executed (model-gateway calls made) and the final message history. -/
structure LoopOut where
  result : AgentResponse
  turns_used : Nat
  messages : List Message
deriving Repr, DecidableEq

/-- The agent loop with `fuel` turns remaining.  Fuel 0 is the fall-through
of `for turn in range(max_turns)`: the max-turns sentinel with the
accumulated history. -/
def query_loop (llm : List Message → List ContentBlock) (exec : ToolExec) :
    Nat → List Message → List String → LoopOut
  | 0, messages, tool_calls_made =>
      ⟨⟨max_turns_sentinel, tool_calls_made⟩, 0, messages⟩
  | fuel + 1, messages, tool_calls_made =>
      match loop_step exec (llm messages) messages tool_calls_made with
      | .done r msgs => ⟨r, 1, msgs⟩
      | .next msgs tcs =>
          let out := query_loop llm exec fuel msgs tcs
          ⟨out.result, out.turns_used + 1, out.messages⟩

/-- `LMStudioAgent.query(user_message, max_turns)`. -/
def query (llm : List Message → List ContentBlock) (exec : ToolExec)
    (user_message : String) (max_turns : Nat) : LoopOut :=
  query_loop llm exec max_turns [⟨"user", .ofString user_message⟩] []

/-- The default of `query`'s `max_turns` parameter. -/
def default_max_turns : Nat := 50

/-! ## Claim-side definitions

These restate parts of the specification in its own words, to be compared
with the embedded source functions. -/

/-- Spec wording for the final answer: the newline-concatenation of the
text blocks' texts, the designated sentinel when that concatenation is
empty. -/
def final_text (content : List ContentBlock) : String :=
  let joined := String.intercalate "\n" (content.filterMap fun b =>
    match b with
    | .text t => some (t.getD "")
    | _ => none)
  if joined = "" then no_text_sentinel else joined

/-- Spec wording for `call_tool`'s return: the newline-join of the text
fields of all text-typed content parts, and the response's error flag. -/
def call_tool_spec (result : ToolCallOutcome) : String × Bool :=
  (String.intercalate "\n" ((result.content.getD []).filterMap fun p =>
      match p with
      | .text t => some (t.getD "")
      | .other _ => none),
   result.isError.getD false)

/-- Spec wording for C8: the projected schema's `"properties"` is a
non-null mapping. -/
def has_non_null_properties (s : InputSchema) : Bool :=
  match s.properties with
  | some (.map _) => true
  | _ => false

/-- A wire line that would complete a read awaiting id `expected`: a
response bearing exactly that id. -/
def line_matches (expected : Nat) : WireLine → Bool
  | .response i _ _ => i = expected
  | _ => false

/-- `stop` left no live process behind. -/
def ProcState.isStopped : ProcState → Bool
  | .running => false
  | .notStarted => true
  | .exited => true

/-- A tool executor that always succeeds (used to instantiate theorems). -/
def exec_ok : ToolExec := fun _ _ => .ok ("ok", false)

/-- A tool executor whose dispatch always raises (used to instantiate
theorems). -/
def exec_raise : ToolExec := fun _ _ => .error "boom"

/-- A model gateway that always requests one tool use (used to instantiate
theorems). -/
def llm_tools : List Message → List ContentBlock := fun _ =>
  [.toolUse "list_charts" none "call_1"]

/-! ## Helper lemmas -/

lemma state_after_request_id (s : MCPState) :
    ∀ n, (state_after s n).request_id = s.request_id + n := by
  intro n
  induction n with
  | zero => rfl
  | succ k ih => simp [state_after, next_request_id, ih]; omega

lemma request_id_seq_eq (s : MCPState) (n : Nat) :
    request_id_seq s n = s.request_id + n + 1 := by
  simp [request_id_seq, next_request_id, state_after_request_id]

lemma read_response_eof_iff (expected : Nat) :
    ∀ lines : List WireLine,
      read_response expected lines = .eof ↔
        ∀ l ∈ lines, line_matches expected l = false := by
  intro lines
  induction lines with
  | nil => simp [read_response]
  | cons l rest ih =>
      cases l with
      | blank => simp [read_response, line_matches, ih]
      | malformed raw => simp [read_response, line_matches, ih]
      | noId m => simp [read_response, line_matches, ih]
      | response i err res =>
          by_cases hi : i = expected
          · subst hi
            cases err with
            | some e => simp [read_response, line_matches]
            | none => simp [read_response, line_matches]
          · simp [read_response, line_matches, hi, ih]

lemma process_tool_uses_ids (exec : ToolExec) :
    ∀ l : List ContentBlock,
      ((process_tool_uses exec l).1).map ToolResultBlock.tool_use_id =
        (l.filter ContentBlock.isToolUse).map ContentBlock.toolUseId := by
  intro l
  induction l with
  | nil => rfl
  | cons b rest ih =>
      cases b with
      | text t => simpa [process_tool_uses, ContentBlock.isToolUse] using ih
      | toolUse n i tid =>
          simp [process_tool_uses, ContentBlock.isToolUse, ContentBlock.toolUseId, ih]
      | other ty => simpa [process_tool_uses, ContentBlock.isToolUse] using ih

lemma process_tool_uses_names (exec : ToolExec) :
    ∀ l : List ContentBlock,
      (process_tool_uses exec l).2 =
        (l.filter ContentBlock.isToolUse).map ContentBlock.toolName := by
  intro l
  induction l with
  | nil => rfl
  | cons b rest ih =>
      cases b with
      | text t => simpa [process_tool_uses, ContentBlock.isToolUse] using ih
      | toolUse n i tid =>
          simp [process_tool_uses, ContentBlock.isToolUse, ContentBlock.toolName, ih]
      | other ty => simpa [process_tool_uses, ContentBlock.isToolUse] using ih

lemma process_tool_uses_length (exec : ToolExec) (l : List ContentBlock) :
    (process_tool_uses exec l).1.length = (l.filter ContentBlock.isToolUse).length := by
  have h := congrArg List.length (process_tool_uses_ids exec l)
  simpa using h

lemma filter_map_text_blocks (content : List ContentBlock) :
    (content.filter ContentBlock.isTextBlock).map ContentBlock.textField =
      content.filterMap (fun b =>
        match b with
        | .text t => some (t.getD "")
        | _ => none) := by
  induction content with
  | nil => rfl
  | cons b rest ih =>
      cases b with
      | text t => simp [ContentBlock.isTextBlock, ContentBlock.textField, ih]
      | toolUse n i tid => simpa [ContentBlock.isTextBlock] using ih
      | other ty => simpa [ContentBlock.isTextBlock] using ih

lemma filter_map_text_parts (parts : List ContentPart) :
    (parts.filter ContentPart.isText).map ContentPart.textField =
      parts.filterMap (fun p =>
        match p with
        | .text t => some (t.getD "")
        | .other _ => none) := by
  induction parts with
  | nil => rfl
  | cons p rest ih =>
      cases p with
      | text t => simp [ContentPart.isText, ContentPart.textField, ih]
      | other ty => simpa [ContentPart.isText] using ih

lemma loop_step_no_tools (exec : ToolExec) (content : List ContentBlock)
    (messages : List Message) (tcs : List String)
    (h : content.filter ContentBlock.isToolUse = []) :
    loop_step exec content messages tcs =
      .done ⟨final_text content, tcs⟩ (messages ++ [⟨"assistant", .ofBlocks content⟩]) := by
  simp [loop_step, h, final_text, filter_map_text_blocks]

lemma loop_step_tools (exec : ToolExec) (content : List ContentBlock)
    (messages : List Message) (tcs : List String)
    (h : content.filter ContentBlock.isToolUse ≠ []) :
    loop_step exec content messages tcs =
      .next
        (messages ++ [⟨"assistant", .ofBlocks content⟩,
          ⟨"user", .ofResults
            (process_tool_uses exec (content.filter ContentBlock.isToolUse)).1⟩])
        (tcs ++ (process_tool_uses exec (content.filter ContentBlock.isToolUse)).2) := by
  simp [loop_step, h]

lemma loop_step_done_inv (exec : ToolExec) (content : List ContentBlock)
    (messages : List Message) (tcs : List String) (r : AgentResponse)
    (msgs : List Message)
    (h : loop_step exec content messages tcs = .done r msgs) :
    r.text ≠ "" ∧ r.tool_calls_made = tcs := by
  by_cases hf : content.filter ContentBlock.isToolUse = []
  · rw [loop_step_no_tools exec content messages tcs hf] at h
    obtain ⟨h1, h2⟩ := StepOutcome.done.inj h
    subst h1
    refine ⟨?_, rfl⟩
    simp only [final_text]
    split
    · decide
    · assumption
  · rw [loop_step_tools exec content messages tcs hf] at h
    exact absurd h (by simp)

lemma query_loop_turns_le (llm : List Message → List ContentBlock)
    (exec : ToolExec) :
    ∀ fuel messages tcs,
      (query_loop llm exec fuel messages tcs).turns_used ≤ fuel := by
  intro fuel
  induction fuel with
  | zero => intro m t; simp [query_loop]
  | succ n ih =>
      intro m t
      simp only [query_loop]
      cases h : loop_step exec (llm m) m t with
      | done r msgs => simp
      | next msgs tcs2 => simpa using ih msgs tcs2

lemma query_loop_prefix_tool_calls (llm : List Message → List ContentBlock)
    (exec : ToolExec) :
    ∀ fuel messages tcs,
      tcs <+: (query_loop llm exec fuel messages tcs).result.tool_calls_made := by
  intro fuel
  induction fuel with
  | zero => intro m t; simp [query_loop]
  | succ n ih =>
      intro m t
      simp only [query_loop]
      cases h : loop_step exec (llm m) m t with
      | done r msgs =>
          have := (loop_step_done_inv exec (llm m) m t r msgs h).2
          simp [this]
      | next msgs tcs2 =>
          by_cases hf : (llm m).filter ContentBlock.isToolUse = []
          · rw [loop_step_no_tools exec (llm m) m t hf] at h
            exact absurd h (by simp)
          · rw [loop_step_tools exec (llm m) m t hf] at h
            obtain ⟨h1, h2⟩ := StepOutcome.next.inj h
            subst h2
            exact List.IsPrefix.trans (List.prefix_append t _) (by simpa using ih msgs _)

lemma query_loop_text_ne_empty (llm : List Message → List ContentBlock)
    (exec : ToolExec) :
    ∀ fuel messages tcs,
      (query_loop llm exec fuel messages tcs).result.text ≠ "" := by
  intro fuel
  induction fuel with
  | zero => intro m t; simp [query_loop, max_turns_sentinel]
  | succ n ih =>
      intro m t
      simp only [query_loop]
      cases h : loop_step exec (llm m) m t with
      | done r msgs =>
          have := (loop_step_done_inv exec (llm m) m t r msgs h).1
          simpa using this
      | next msgs tcs2 => simpa using ih msgs tcs2

lemma query_loop_all_tools (llm : List Message → List ContentBlock)
    (exec : ToolExec)
    (h : ∀ ms, (llm ms).filter ContentBlock.isToolUse ≠ []) :
    ∀ fuel messages tcs,
      (query_loop llm exec fuel messages tcs).result.text = max_turns_sentinel ∧
        (query_loop llm exec fuel messages tcs).turns_used = fuel := by
  intro fuel
  induction fuel with
  | zero => intro m t; simp [query_loop]
  | succ n ih =>
      intro m t
      simp only [query_loop]
      rw [loop_step_tools exec (llm m) m t (h m)]
      simpa using ih _ _

/-! ## Claims -/

/-- Claim C1: for every model turn whose response content contains
`k ≥ 1` tool-use blocks, the loop appends — as a single new user-role
message immediately following the assistant message — a list of exactly
`k` tool-result blocks whose `tool_use_id` fields equal the ids of the
`k` tool-use blocks in the same order. -/
theorem spec_C1_tool_results_match (exec : ToolExec) (content : List ContentBlock)
    (messages : List Message) (tcs : List String)
    (h : content.filter ContentBlock.isToolUse ≠ []) :
    ∃ results : List ToolResultBlock,
      loop_step exec content messages tcs =
        .next (messages ++ [⟨"assistant", .ofBlocks content⟩, ⟨"user", .ofResults results⟩])
          (tcs ++ (content.filter ContentBlock.isToolUse).map ContentBlock.toolName) ∧
      results.length = (content.filter ContentBlock.isToolUse).length ∧
      results.map ToolResultBlock.tool_use_id =
        (content.filter ContentBlock.isToolUse).map ContentBlock.toolUseId := by
  refine ⟨(process_tool_uses exec (content.filter ContentBlock.isToolUse)).1, ?_, ?_, ?_⟩
  · rw [loop_step_tools exec content messages tcs h, process_tool_uses_names]
    simp [List.filter_filter]
  · rw [process_tool_uses_length]
    simp [List.filter_filter]
  · rw [process_tool_uses_ids]
    simp [List.filter_filter]

/-- Instantiation of C1 at a concrete turn with one tool-use block. -/
theorem spec_C1_witness :
    ∃ results : List ToolResultBlock,
      loop_step exec_ok [ContentBlock.toolUse "list_charts" none "call_1"] [] [] =
        .next ([] ++ [⟨"assistant", .ofBlocks [ContentBlock.toolUse "list_charts" none "call_1"]⟩,
            ⟨"user", .ofResults results⟩])
          ([] ++ ([ContentBlock.toolUse "list_charts" none "call_1"].filter
              ContentBlock.isToolUse).map ContentBlock.toolName) ∧
      results.length = ([ContentBlock.toolUse "list_charts" none "call_1"].filter
          ContentBlock.isToolUse).length ∧
      results.map ToolResultBlock.tool_use_id =
        ([ContentBlock.toolUse "list_charts" none "call_1"].filter
            ContentBlock.isToolUse).map ContentBlock.toolUseId :=
  spec_C1_tool_results_match exec_ok
    [ContentBlock.toolUse "list_charts" none "call_1"] [] [] (by decide)

/-- Claim C2: an exception raised while dispatching a tool through
`call_tool` is captured as that tool's own labelled error text with the
error flag set; the iteration is not aborted (a result block is still
produced, one per tool use), and the attempted name is appended to the
tool-call history regardless of outcome (the history depends only on the
blocks, not on the executor's results). -/
theorem spec_C2_tool_errors_captured (exec : ToolExec) :
    (∀ (name : String) (input : Option String) (i e : String),
        exec name (input.getD "\x7b\x7d") = .error e →
        process_tool_uses exec [.toolUse name input i] =
          ([⟨i, "MCP error: " ++ e, true⟩], [name])) ∧
    (∀ l : List ContentBlock,
        (process_tool_uses exec l).2 =
          (l.filter ContentBlock.isToolUse).map ContentBlock.toolName) ∧
    (∀ l : List ContentBlock,
        (process_tool_uses exec l).1.length =
          (l.filter ContentBlock.isToolUse).length) := by
  refine ⟨?_, process_tool_uses_names exec, process_tool_uses_length exec⟩
  intro name input i e he
  simp [process_tool_uses, run_tool, he]

/-- Instantiation of C2 at an executor whose dispatch always raises. -/
theorem spec_C2_witness :
    process_tool_uses exec_raise [.toolUse "list_charts" none "call_1"] =
      ([⟨"call_1", "MCP error: boom", true⟩], ["list_charts"]) :=
  (spec_C2_tool_errors_captured exec_raise).1 "list_charts" none "call_1" "boom" rfl

/-- Claim C3: a model turn with zero tool-use blocks terminates the loop,
returning the newline-concatenation of the text blocks' texts (the
designated sentinel when there was no text at all, never the empty string)
and the tool-call history accumulated before that turn, unchanged. -/
theorem spec_C3_no_tool_uses_terminates (exec : ToolExec) (content : List ContentBlock)
    (messages : List Message) (tcs : List String)
    (h : content.filter ContentBlock.isToolUse = []) :
    loop_step exec content messages tcs =
      .done ⟨final_text content, tcs⟩ (messages ++ [⟨"assistant", .ofBlocks content⟩]) ∧
    final_text content ≠ "" ∧
    (content.filterMap (fun b =>
        match b with
        | .text t => some (t.getD "")
        | _ => none) = [] →
      final_text content = no_text_sentinel) := by
  refine ⟨loop_step_no_tools exec content messages tcs h, ?_, ?_⟩
  · simp only [final_text]
    split
    · decide
    · assumption
  · intro hempty
    have hnil : String.intercalate "\n" ([] : List String) = "" := rfl
    simp [final_text, hempty, hnil]

/-- Instantiation of C3 at the spec's scenario: content `[text "Hello"]`. -/
theorem spec_C3_witness :
    loop_step exec_ok [ContentBlock.text (some "Hello")] [] ["prior"] =
      .done ⟨final_text [ContentBlock.text (some "Hello")], ["prior"]⟩
        ([] ++ [⟨"assistant", .ofBlocks [ContentBlock.text (some "Hello")]⟩]) ∧
    final_text [ContentBlock.text (some "Hello")] ≠ "" :=
  ⟨(spec_C3_no_tool_uses_terminates exec_ok [ContentBlock.text (some "Hello")]
      [] ["prior"] (by decide)).1,
   (spec_C3_no_tool_uses_terminates exec_ok [ContentBlock.text (some "Hello")]
      [] ["prior"] (by decide)).2.1⟩

/-- Claim C4: the loop performs at most `max_turns` turns (default 50); the
tool-call history is never shortened (the accumulated history is a prefix
of the returned one); and when every model response keeps requesting tools,
the budget is exhausted and the loop returns the max-turns sentinel. -/
theorem spec_C4_turn_budget (llm : List Message → List ContentBlock)
    (exec : ToolExec) (user_message : String) (fuel : Nat)
    (messages : List Message) (tcs : List String) :
    (query_loop llm exec fuel messages tcs).turns_used ≤ fuel ∧
    (query llm exec user_message default_max_turns).turns_used ≤ 50 ∧
    tcs <+: (query_loop llm exec fuel messages tcs).result.tool_calls_made ∧
    ((∀ ms, (llm ms).filter ContentBlock.isToolUse ≠ []) →
      (query_loop llm exec fuel messages tcs).result.text = max_turns_sentinel ∧
      (query_loop llm exec fuel messages tcs).turns_used = fuel) := by
  refine ⟨query_loop_turns_le llm exec fuel messages tcs, ?_,
    query_loop_prefix_tool_calls llm exec fuel messages tcs,
    fun h => query_loop_all_tools llm exec h fuel messages tcs⟩
  simpa [query, default_max_turns] using
    query_loop_turns_le llm exec 50 [⟨"user", .ofString user_message⟩] []

/-- Instantiation of C4 with a gateway that always requests a tool. -/
theorem spec_C4_witness :
    (query_loop llm_tools exec_ok 2 [] []).turns_used ≤ 2 ∧
    (query_loop llm_tools exec_ok 2 [] []).result.text = max_turns_sentinel :=
  ⟨(spec_C4_turn_budget llm_tools exec_ok "q" 2 [] []).1,
   ((spec_C4_turn_budget llm_tools exec_ok "q" 2 [] []).2.2.2
      (fun ms => by simp [llm_tools, ContentBlock.isToolUse])).1⟩

/-- Claim C5: correlation ids assigned to successive requests of one
session are strictly increasing (hence unique), and the read loop discards
— without completing the call — any response whose id differs from the id
of the request just sent. -/
theorem spec_C5_correlation_ids :
    (∀ s : MCPState, StrictMono (request_id_seq s)) ∧
    (∀ (expected i : Nat) (err : Option RpcError) (res : Option ToolCallOutcome)
        (rest : List WireLine),
        i ≠ expected →
        read_response expected (.response i err res :: rest) =
          read_response expected rest) := by
  constructor
  · intro s a b hab
    simp only [request_id_seq_eq]
    omega
  · intro expected i err res rest hi
    simp [read_response, hi]

/-- Instantiation of C5: the first two ids of a fresh session, and a
mismatching response being skipped. -/
theorem spec_C5_witness :
    request_id_seq ⟨0⟩ 0 < request_id_seq ⟨0⟩ 1 ∧
    read_response 2 [.response 1 none none] = read_response 2 [] :=
  ⟨spec_C5_correlation_ids.1 ⟨0⟩ (show (0 : Nat) < 1 by decide),
   spec_C5_correlation_ids.2 2 1 none none [] (by decide)⟩

/-- Claim C6: while awaiting a response the read loop fails exactly in two
cases — the matching response carries a non-null error object (failing with
the remote code and message) or the stream reaches EOF; blank, malformed
and id-less lines are skipped, never failing the loop, and EOF is reached
precisely when no line matches the awaited id. -/
theorem spec_C6_read_loop_failure_cases (expected : Nat) :
    read_response expected [] = .eof ∧
    (∀ (raw : String) (rest : List WireLine),
        read_response expected (.malformed raw :: rest) = read_response expected rest) ∧
    (∀ rest : List WireLine,
        read_response expected (.blank :: rest) = read_response expected rest) ∧
    (∀ (m : String) (rest : List WireLine),
        read_response expected (.noId m :: rest) = read_response expected rest) ∧
    (∀ (e : RpcError) (res : Option ToolCallOutcome) (rest : List WireLine),
        read_response expected (.response expected (some e) res :: rest) =
          .rpcError e.code e.message) ∧
    (∀ lines : List WireLine,
        read_response expected lines = .eof ↔
          ∀ l ∈ lines, line_matches expected l = false) := by
  refine ⟨rfl, fun raw rest => rfl, fun rest => rfl, fun m rest => rfl, ?_,
    read_response_eof_iff expected⟩
  intro e res rest
  simp [read_response]

/-- Instantiation of C6 at concrete wire traffic. -/
theorem spec_C6_witness :
    read_response 7 [] = .eof ∧
    read_response 7 [.malformed "oops"] = read_response 7 [] ∧
    read_response 7 [.response 7 (some ⟨-32600, "bad request"⟩) none] =
      .rpcError (-32600) "bad request" ∧
    (read_response 7 [.blank, .noId "n", .response 3 none none] = .eof ↔
      ∀ l ∈ [WireLine.blank, .noId "n", .response 3 none none],
        line_matches 7 l = false) :=
  ⟨(spec_C6_read_loop_failure_cases 7).1,
   (spec_C6_read_loop_failure_cases 7).2.1 "oops" [],
   (spec_C6_read_loop_failure_cases 7).2.2.2.2.1 ⟨-32600, "bad request"⟩ none [],
   (spec_C6_read_loop_failure_cases 7).2.2.2.2.2 [.blank, .noId "n", .response 3 none none]⟩

/-- Claim C7: a successful `call_tool` returns the newline-join of the text
fields of all text-typed content parts (other part types contribute
nothing) and the response's error flag; and reading a matching successful
response yields exactly that projection. -/
theorem spec_C7_call_tool_projection :
    (∀ result : ToolCallOutcome, call_tool_project result = call_tool_spec result) ∧
    (∀ (expected : Nat) (result : ToolCallOutcome) (rest : List WireLine),
        call_tool expected (.response expected none (some result) :: rest) =
          .ok (call_tool_spec result)) := by
  constructor
  · intro result
    simp [call_tool_project, call_tool_spec, filter_map_text_parts]
  · intro expected result rest
    simp [call_tool, read_response, call_tool_project, call_tool_spec,
      filter_map_text_parts]

/-- Claim C8, counterexample: a descriptor whose schema carries an explicit
`"properties": null` passes through the adapter with the null intact, so
the projected input schema does not have a non-null properties mapping. -/
theorem spec_C8_counterexample :
    filter_and_adapt ["list_charts"]
        [⟨"list_charts", none, some ⟨some "object", some PropsValue.null, []⟩⟩] =
      [⟨"list_charts", "", ⟨some "object", some PropsValue.null, []⟩⟩] ∧
    has_non_null_properties
        (⟨some "object", some PropsValue.null, []⟩ : InputSchema) = false := by
  constructor
  · rfl
  · rfl

/-- Claim C8 (amended): the adapter outputs exactly the descriptors whose
name is in the allow-list, projected to name / description (empty when
absent) / input schema; every projected schema has a `"properties"` key,
set to the empty mapping when the descriptor's schema lacks the key, while
a schema already carrying the key — including an explicit null value — is
left unchanged. -/
theorem spec_C8_amended (allowed : List String) (tools : List MCPTool) :
    filter_and_adapt allowed tools =
      (tools.filter fun t => allowed.contains t.name).map (fun t =>
        ⟨t.name, t.description.getD "",
          ensure_properties (t.inputSchema.getD default_schema)⟩) ∧
    (∀ a ∈ filter_and_adapt allowed tools, allowed.contains a.name = true) ∧
    (filter_and_adapt allowed tools).map AnthropicTool.name =
      (tools.filter fun t => allowed.contains t.name).map MCPTool.name ∧
    (∀ a ∈ filter_and_adapt allowed tools, a.input_schema.properties.isSome = true) ∧
    (∀ s : InputSchema, s.properties = none →
        ensure_properties s = { s with properties := some (.map []) }) ∧
    (∀ s : InputSchema, s.properties.isSome = true → ensure_properties s = s) := by
  have hmap : filter_and_adapt allowed tools =
      (tools.filter fun t => allowed.contains t.name).map (fun t =>
        ⟨t.name, t.description.getD "",
          ensure_properties (t.inputSchema.getD default_schema)⟩) := rfl
  have hsome : ∀ s : InputSchema, (ensure_properties s).properties.isSome = true := by
    intro s
    unfold ensure_properties
    split
    · rfl
    · next hne => cases hp : s.properties with
      | none => exact absurd hp hne
      | some v => simp [hp]
  refine ⟨hmap, ?_, ?_, ?_, ?_, ?_⟩
  · intro a ha
    rw [hmap] at ha
    obtain ⟨t, ht, rfl⟩ := List.mem_map.mp ha
    exact (List.mem_filter.mp ht).2
  · rw [hmap, List.map_map]
    rfl
  · intro a ha
    rw [hmap] at ha
    obtain ⟨t, ht, rfl⟩ := List.mem_map.mp ha
    exact hsome _
  · intro s hp
    simp [ensure_properties, hp]
  · intro s hp
    unfold ensure_properties
    split
    · next h => rw [h] at hp; exact absurd hp (by simp)
    · rfl

/-- Instantiation of C8 (amended) at the spec's scenario: descriptor
`{name: "list_charts", inputSchema: {type: "object"}}` with
`"list_charts"` allowed. -/
theorem spec_C8_witness :
    filter_and_adapt ["list_charts"] [⟨"list_charts", none, some ⟨some "object", none, []⟩⟩] =
      [⟨"list_charts", "",
        ensure_properties ((some (⟨some "object", none, []⟩ : InputSchema)).getD
          default_schema)⟩] ∧
    ensure_properties ⟨some "object", none, []⟩ =
      (⟨some "object", some (.map []), []⟩ : InputSchema) :=
  ⟨(spec_C8_amended ["list_charts"]
      [⟨"list_charts", none, some ⟨some "object", none, []⟩⟩]).1,
   (spec_C8_amended ["list_charts"]
      [⟨"list_charts", none, some ⟨some "object", none, []⟩⟩]).2.2.2.2.1
     ⟨some "object", none, []⟩ rfl⟩

/-- Claim C9: `stop()` never raises and is idempotent — called on a
never-started client, a running process or an already-exited process it
returns normally, leaves no live process, and a second call (under any
environment behaviour) returns normally with the same state. -/
theorem spec_C9_stop_idempotent (env : StopEnv) (s : ProcState) :
    ∃ s' : ProcState,
      stop env s = .ok s' ∧ s'.isStopped = true ∧
      ∀ env2 : StopEnv, stop env2 s' = .ok s' := by
  cases s with
  | notStarted => exact ⟨.notStarted, rfl, rfl, fun env2 => rfl⟩
  | exited => exact ⟨.exited, rfl, rfl, fun env2 => rfl⟩
  | running =>
      refine ⟨.exited, ?_, rfl, fun env2 => rfl⟩
      simp only [stop]
      cases h : stop_try_body env with
      | ok u => rfl
      | error e => cases e; rfl

/-- Claim C10: a terminating query never returns the empty string — and
whenever a turn has no tool uses and the newline-join of its text blocks is
empty (in particular when a text block is present but carries an empty or
missing text field), the loop returns the designated sentinel instead of
the empty join. -/
theorem spec_C10_text_never_empty :
    (∀ (llm : List Message → List ContentBlock) (exec : ToolExec)
        (fuel : Nat) (messages : List Message) (tcs : List String),
        (query_loop llm exec fuel messages tcs).result.text ≠ "") ∧
    (∀ (exec : ToolExec) (content : List ContentBlock)
        (messages : List Message) (tcs : List String),
        content.filter ContentBlock.isToolUse = [] →
        String.intercalate "\n"
            ((content.filter ContentBlock.isTextBlock).map ContentBlock.textField) = "" →
        loop_step exec content messages tcs =
          .done ⟨no_text_sentinel, tcs⟩
            (messages ++ [⟨"assistant", .ofBlocks content⟩])) := by
  constructor
  · exact fun llm exec fuel m t => query_loop_text_ne_empty llm exec fuel m t
  · intro exec content m t hf hj
    rw [loop_step_no_tools exec content m t hf]
    have hft : final_text content = no_text_sentinel := by
      rw [final_text, ← filter_map_text_blocks, hj]
      rfl
    rw [hft]

/-- Instantiation of C10 at a turn whose only block is a text block with an
empty text field. -/
theorem spec_C10_witness :
    loop_step exec_ok [ContentBlock.text (some "")] [] [] =
      .done ⟨no_text_sentinel, []⟩
        ([] ++ [⟨"assistant", .ofBlocks [ContentBlock.text (some "")]⟩]) :=
  spec_C10_text_never_empty.2 exec_ok [ContentBlock.text (some "")] [] []
    (by decide) (by decide)

end MaudeView
